import Mathlib

/-!
Shallow embedding of the `vema` vending-machine program (`vema.py`).

Monetary amounts in cents are integers (`ℤ`), currency amounts in EUR are
rationals (`ℚ`); the prices appearing in the program's catalogs are exact
multiples of a cent, for which Python's float arithmetic computes the same
cent values as exact rational arithmetic.  The inventory's dict is embedded
as a function from ids to optional products; mutation becomes explicit
state passing.
-/

/-- Embeds `colorama.Fore.RED`. -/
def fore_red : String := "\x1b[31m"

/-- Embeds `colorama.Fore.RESET`. -/
def fore_reset : String := "\x1b[39m"

/-- Embeds `msg_error`: wraps a message in red color codes. -/
def msg_error (s : String) : String := fore_red ++ s ++ fore_reset

/-- A product record `{"id": ..., "name": ..., "price": ..., "stock": ...}`. -/
structure Product where
  id : ℤ
  name : String
  price : ℚ
  stock : ℤ
deriving DecidableEq

/-- The inventory's `_products` dict: a mapping from product id to product. -/
def Inventory : Type := ℤ → Option Product

/-- Embeds the conversion `int(prod["price"] * 100)` of a price in EUR to a
price in cents: truncation, which on the non-negative prices of the catalog
is the floor of `price * 100`. -/
def price_ct (p : ℚ) : ℤ := ⌊p * 100⌋

/-- Two-digit rendering of a cent remainder, for the price format below. -/
def pad2 (n : ℤ) : String := if n < 10 then "0" ++ toString n else toString n

/-- Renders a price with two decimals, modelling the Python format
`f"{price:.2f}"` for prices that are a whole number of cents. -/
def fmt_eur (p : ℚ) : String :=
  let ct : ℤ := round (p * 100)
  toString (Int.fdiv ct 100) ++ "." ++ pad2 (Int.fmod ct 100)

/-- Embeds `Inventory.retrieve_product`: checks unknown id, then sold out,
then funds; on success decrements the product's stock by one.  Returns the
`(amount_spent_or_None, message)` pair together with the updated inventory
(the dict mutation made explicit). -/
def retrieve_product (inv : Inventory) (id : ℤ) (amount_ct : ℤ) :
    (Option ℤ × String) × Inventory :=
  match inv id with
  | none => ((none, msg_error ("No product with id " ++ toString id ++ ".")), inv)
  | some prod =>
    if prod.stock = 0 then
      ((none, msg_error ("Product " ++ toString id ++ " (" ++ prod.name ++ ") is sold out.")),
       inv)
    else if amount_ct < price_ct prod.price then
      ((none, msg_error "Insufficient funds."), inv)
    else
      ((some (price_ct prod.price),
        "You retrieved 1 " ++ prod.name ++ " for the price of €" ++ fmt_eur prod.price ++ "."),
       fun i => if i = id then some { prod with stock := prod.stock - 1 } else inv i)

/-- Embeds `DEFAULT_COINS = {5, 10, 20, 50, 100}`. -/
def DEFAULT_COINS : List ℤ := [5, 10, 20, 50, 100]

/-- Embeds `sorted(coin_set, reverse=True)`: sort descending. -/
def sort_desc (l : List ℤ) : List ℤ :=
  @List.insertionSort ℤ (fun a b => b ≤ a) (fun a b => Int.decLe b a) l

/-- The loop of `amount_to_coins`: for each coin `c` in order, append
`rest // c` copies of `c` and continue with `rest % c` (Python's floor
division and modulus are `Int.fdiv` and `Int.fmod`).  Returns the collected
coins and the final remainder. -/
def coin_loop : List ℤ → ℤ → List ℤ × ℤ
  | [], rest => ([], rest)
  | c :: cs, rest =>
      let out := coin_loop cs (Int.fmod rest c)
      (List.replicate (Int.fdiv rest c).toNat c ++ out.1, out.2)

/-- Embeds `VendingMachineModel.amount_to_coins` with `prettify=False`:
greedy decomposition over the descending-sorted coin set; `None` if the
remainder after the loop is non-zero. -/
def amount_to_coins (amount_ct : ℤ) (coin_set : List ℤ) : Option (List ℤ) :=
  let out := coin_loop (sort_desc coin_set) amount_ct
  if out.2 ≠ 0 then none else some out.1

/-- Embeds the `prettify` branch for a single coin:
`f"{int(c/100)}€" if c >= 100 else f"{c}ct"`. -/
def prettify_coin (c : ℤ) : String :=
  if 100 ≤ c then toString (Int.fdiv c 100) ++ "€" else toString c ++ "ct"

/-- Embeds `amount_to_coins` with `prettify=True`: the same decomposition,
each coin rendered as a string. -/
def amount_to_coins_pretty (amount_ct : ℤ) (coin_set : List ℤ) : Option (List String) :=
  (amount_to_coins amount_ct coin_set).map (List.map prettify_coin)

/-- Greedy decomposition as worded by the spec, for comparison with
`amount_to_coins`: walk the denominations largest-first; for each
denomination take `count = remaining // denom`, append `count` copies and
reduce the remainder by `count * denom`. -/
def greedy_spec_pass (denoms : List ℤ) (amount : ℤ) : List ℤ × ℤ :=
  denoms.foldl
    (fun acc d =>
      (acc.1 ++ List.replicate (Int.fdiv acc.2 d).toNat d,
       acc.2 - Int.fdiv acc.2 d * d))
    ([], amount)

/-- The `VendingMachineModel` state: balance in cents, the descending coin
list `_coins`, and the inventory. -/
structure VendingMachineModel where
  inventory : Inventory
  balance : ℤ
  coins : List ℤ

/-- Embeds `VendingMachineModel.__init__` with the default
`initial_balance=0`: balance 0 and `_coins = sorted(DEFAULT_COINS, reverse=True)`. -/
def VendingMachineModel.init (inventory : Inventory) : VendingMachineModel :=
  { inventory := inventory, balance := 0, coins := sort_desc DEFAULT_COINS }

/-- Embeds `insert_money`: adds `int(max(0, amount_eur * 100))` cents to the
balance and returns the new state together with the new balance in EUR
(`balance / 100`).  The truncation `int(...)` of the non-negative
`max(0, amount_eur * 100)` is its floor. -/
def insert_money (m : VendingMachineModel) (amount_eur : ℚ) : VendingMachineModel × ℚ :=
  let m2 := { m with balance := m.balance + ⌊max 0 (amount_eur * 100)⌋ }
  (m2, (m2.balance : ℚ) / 100)

/-- Embeds `return_coins` with `prettify=False`: decomposes the balance with
the machine's coins, then sets the balance to 0. -/
def return_coins (m : VendingMachineModel) : VendingMachineModel × Option (List ℤ) :=
  ({ m with balance := 0 }, amount_to_coins m.balance m.coins)

/-- Embeds `buy_product`: delegates to `retrieve_product` with the current
balance; if an amount was paid, deducts it from the balance. -/
def buy_product (m : VendingMachineModel) (id : ℤ) :
    VendingMachineModel × (Option ℤ × String) :=
  let out := retrieve_product m.inventory id m.balance
  match out.1.1 with
  | some amount_paid_ct =>
      ({ m with inventory := out.2, balance := m.balance - amount_paid_ct }, out.1)
  | none => ({ m with inventory := out.2 }, out.1)

/-! ### Helper lemmas about the coin loop -/

theorem coin_loop_cons (c : ℤ) (cs : List ℤ) (rest : ℤ) :
    coin_loop (c :: cs) rest =
      (List.replicate (Int.fdiv rest c).toNat c ++ (coin_loop cs (Int.fmod rest c)).1,
       (coin_loop cs (Int.fmod rest c)).2) := rfl

theorem mem_sort_desc {x : ℤ} {l : List ℤ} : x ∈ sort_desc l ↔ x ∈ l :=
  (@List.perm_insertionSort ℤ (fun a b => b ≤ a) (fun a b => Int.decLe b a) l).mem_iff

theorem coin_loop_zero (cs : List ℤ) : coin_loop cs 0 = ([], 0) := by
  induction cs with
  | nil => rfl
  | cons c cs ih => simp [coin_loop_cons, Int.zero_fmod, Int.zero_fdiv, ih]

theorem coin_loop_snd_eq_zero (cs : List ℤ) (r : ℤ) (h : (1 : ℤ) ∈ cs) :
    (coin_loop cs r).2 = 0 := by
  induction cs generalizing r with
  | nil => simp at h
  | cons c cs ih =>
    rcases List.mem_cons.1 h with hc | hc
    · subst hc
      simp [coin_loop_cons, Int.fmod_one, coin_loop_zero]
    · simp [coin_loop_cons, ih (Int.fmod r c) hc]

theorem coin_loop_sum : ∀ (cs : List ℤ) (r : ℤ), (∀ c ∈ cs, 0 < c) → 0 ≤ r →
    (coin_loop cs r).1.sum + (coin_loop cs r).2 = r ∧ 0 ≤ (coin_loop cs r).2
  | [], r, _, hr => by simpa [coin_loop] using hr
  | c :: cs, r, hpos, hr => by
    have hc : 0 < c := hpos c (by simp)
    have hm : 0 ≤ Int.fmod r c := Int.fmod_nonneg hr hc.le
    obtain ⟨h1, h2⟩ :=
      coin_loop_sum cs (Int.fmod r c) (fun x hx => hpos x (by simp [hx])) hm
    refine ⟨?_, by simpa [coin_loop_cons] using h2⟩
    have hk : 0 ≤ Int.fdiv r c := Int.fdiv_nonneg hr hc.le
    have hrep : (List.replicate (Int.fdiv r c).toNat c).sum = Int.fdiv r c * c := by
      rw [List.sum_replicate, nsmul_eq_mul, Int.toNat_of_nonneg hk]
    rw [coin_loop_cons]
    simp only [List.sum_append]
    rw [hrep, add_assoc, h1, mul_comm]
    exact Int.fdiv_add_fmod r c

theorem coin_loop_mem : ∀ (cs : List ℤ) (r : ℤ) (x : ℤ), x ∈ (coin_loop cs r).1 → x ∈ cs
  | [], _, _, hx => by simp [coin_loop] at hx
  | c :: cs, r, x, hx => by
    rw [coin_loop_cons] at hx
    rcases List.mem_append.1 hx with hx | hx
    · simp [List.eq_of_mem_replicate hx]
    · exact List.mem_cons_of_mem c (coin_loop_mem cs (Int.fmod r c) x hx)

theorem coin_loop_eq_fold : ∀ (cs : List ℤ) (acc : List ℤ) (r : ℤ),
    cs.foldl
      (fun a d =>
        (a.1 ++ List.replicate (Int.fdiv a.2 d).toNat d, a.2 - Int.fdiv a.2 d * d))
      (acc, r)
      = (acc ++ (coin_loop cs r).1, (coin_loop cs r).2)
  | [], acc, r => by simp [coin_loop]
  | c :: cs, acc, r => by
    have hstep : r - Int.fdiv r c * c = Int.fmod r c := by
      rw [Int.fmod_def, mul_comm]
    rw [List.foldl_cons]
    show List.foldl _ (acc ++ List.replicate (Int.fdiv r c).toNat c, r - Int.fdiv r c * c) cs = _
    rw [hstep, coin_loop_eq_fold cs (acc ++ List.replicate (Int.fdiv r c).toNat c) (Int.fmod r c),
      coin_loop_cons, List.append_assoc]

theorem greedy_spec_pass_eq (ds : List ℤ) (a : ℤ) : greedy_spec_pass ds a = coin_loop ds a := by
  rw [greedy_spec_pass, coin_loop_eq_fold ds [] a, List.nil_append]

/-- C1: whenever `amount_to_coins` returns a list for a non-negative amount
and a non-empty set of positive denominations, the list sums to the amount
and draws only from the denominations; the result is produced by the greedy
largest-first pass (the spec's wording, `greedy_spec_pass`), and a non-zero
leftover remainder yields `none`. -/
theorem amount_to_coins_correct (amount_ct : ℤ) (S : List ℤ)
    (hS : S ≠ []) (hpos : ∀ c ∈ S, 0 < c) (ha : 0 ≤ amount_ct) :
    (∀ l, amount_to_coins amount_ct S = some l →
        l.sum = amount_ct ∧ ∀ x ∈ l, x ∈ S) ∧
    amount_to_coins amount_ct S =
      (if (greedy_spec_pass (sort_desc S) amount_ct).2 = 0
       then some (greedy_spec_pass (sort_desc S) amount_ct).1 else none) := by
  constructor
  · intro l hl
    rw [amount_to_coins] at hl
    by_cases h0 : (coin_loop (sort_desc S) amount_ct).2 = 0
    · have hl2 : (coin_loop (sort_desc S) amount_ct).1 = l := by
        simpa [h0] using hl
      have hsum := coin_loop_sum (sort_desc S) amount_ct
        (fun c hc => hpos c (mem_sort_desc.1 hc)) ha
      constructor
      · rw [← hl2]
        have := hsum.1
        rw [h0, add_zero] at this
        exact this
      · intro x hx
        rw [← hl2] at hx
        exact mem_sort_desc.1 (coin_loop_mem (sort_desc S) amount_ct x hx)
    · simp [h0] at hl
  · rw [amount_to_coins, greedy_spec_pass_eq]
    by_cases h0 : (coin_loop (sort_desc S) amount_ct).2 = 0
    · simp [h0]
    · simp [h0]

/-- C1 witness: at amount 165 with the default denominations. -/
theorem amount_to_coins_correct_witness :
    (([5, 10, 20, 50, 100] : List ℤ) ≠ [] ∧
      (∀ c ∈ ([5, 10, 20, 50, 100] : List ℤ), 0 < c) ∧ (0 : ℤ) ≤ 165) ∧
    ((∀ l, amount_to_coins 165 [5, 10, 20, 50, 100] = some l →
        l.sum = 165 ∧ ∀ x ∈ l, x ∈ ([5, 10, 20, 50, 100] : List ℤ)) ∧
      amount_to_coins 165 [5, 10, 20, 50, 100] =
        (if (greedy_spec_pass (sort_desc [5, 10, 20, 50, 100]) 165).2 = 0
         then some (greedy_spec_pass (sort_desc [5, 10, 20, 50, 100]) 165).1 else none)) :=
  ⟨⟨by decide, by decide, by decide⟩,
    amount_to_coins_correct 165 [5, 10, 20, 50, 100] (by decide) (by decide) (by decide)⟩

/-- C9: for a coin set of positive denominations containing 1 and a
non-negative amount, `amount_to_coins` never fails. -/
theorem amount_to_coins_never_fails (amount_ct : ℤ) (S : List ℤ)
    (h1 : (1 : ℤ) ∈ S) (hpos : ∀ c ∈ S, 0 < c) (ha : 0 ≤ amount_ct) :
    ∃ l, amount_to_coins amount_ct S = some l := by
  have h1s : (1 : ℤ) ∈ sort_desc S := mem_sort_desc.2 h1
  have hz := coin_loop_snd_eq_zero (sort_desc S) amount_ct h1s
  exact ⟨(coin_loop (sort_desc S) amount_ct).1, by simp [amount_to_coins, hz]⟩

/-- C9 witness: amount 7 with denominations 1 and 5. -/
theorem amount_to_coins_never_fails_witness :
    ((1 : ℤ) ∈ ([1, 5] : List ℤ) ∧ (∀ c ∈ ([1, 5] : List ℤ), 0 < c) ∧ (0 : ℤ) ≤ 7) ∧
    ∃ l, amount_to_coins 7 [1, 5] = some l :=
  ⟨⟨by decide, by decide, by decide⟩,
    amount_to_coins_never_fails 7 [1, 5] (by decide) (by decide) (by decide)⟩

/-! ### Case equations for `retrieve_product` -/

theorem retrieve_product_of_unknown (inv : Inventory) (id a : ℤ) (h : inv id = none) :
    retrieve_product inv id a =
      ((none, msg_error ("No product with id " ++ toString id ++ ".")), inv) := by
  unfold retrieve_product
  rw [h]

theorem retrieve_product_of_soldout (inv : Inventory) (id a : ℤ) (p : Product)
    (h : inv id = some p) (h0 : p.stock = 0) :
    retrieve_product inv id a =
      ((none, msg_error ("Product " ++ toString id ++ " (" ++ p.name ++ ") is sold out.")),
       inv) := by
  unfold retrieve_product
  rw [h]
  simp [h0]

theorem retrieve_product_of_insufficient (inv : Inventory) (id a : ℤ) (p : Product)
    (h : inv id = some p) (h0 : p.stock ≠ 0) (hlt : a < price_ct p.price) :
    retrieve_product inv id a = ((none, msg_error "Insufficient funds."), inv) := by
  unfold retrieve_product
  rw [h]
  simp [h0, hlt]

theorem retrieve_product_of_success (inv : Inventory) (id a : ℤ) (p : Product)
    (h : inv id = some p) (h0 : p.stock ≠ 0) (hge : price_ct p.price ≤ a) :
    retrieve_product inv id a =
      ((some (price_ct p.price),
        "You retrieved 1 " ++ p.name ++ " for the price of €" ++ fmt_eur p.price ++ "."),
       fun i => if i = id then some { p with stock := p.stock - 1 } else inv i) := by
  unfold retrieve_product
  rw [h]
  simp [h0, not_lt.2 hge]

/-- C2: `retrieve_product` checks failures in the order unknown id, then
sold out, then insufficient funds; a sold-out product yields the sold-out
failure for every offered amount, funds included being insufficient. -/
theorem retrieve_product_error_precedence (inv : Inventory) (id amount_ct : ℤ) :
    (inv id = none →
      (retrieve_product inv id amount_ct).1 =
        (none, msg_error ("No product with id " ++ toString id ++ "."))) ∧
    (∀ p, inv id = some p → p.stock = 0 →
      (retrieve_product inv id amount_ct).1 =
        (none, msg_error ("Product " ++ toString id ++ " (" ++ p.name ++ ") is sold out."))) ∧
    (∀ p, inv id = some p → p.stock ≠ 0 → amount_ct < price_ct p.price →
      (retrieve_product inv id amount_ct).1 =
        (none, msg_error "Insufficient funds.")) := by
  refine ⟨fun h => ?_, fun p h h0 => ?_, fun p h h0 hlt => ?_⟩
  · rw [retrieve_product_of_unknown inv id amount_ct h]
  · rw [retrieve_product_of_soldout inv id amount_ct p h h0]
  · rw [retrieve_product_of_insufficient inv id amount_ct p h h0 hlt]

/-- C2 witness: a sold-out product offered insufficient funds shows the
sold-out failure, not the insufficient-funds failure. -/
theorem retrieve_product_error_precedence_witness :
    ((fun i => if i = 3 then some (⟨3, "Soy Milk", 1, 0⟩ : Product) else none) 3 =
        some (⟨3, "Soy Milk", 1, 0⟩ : Product) ∧
      (⟨3, "Soy Milk", 1, 0⟩ : Product).stock = 0) ∧
    (retrieve_product
        (fun i => if i = 3 then some (⟨3, "Soy Milk", 1, 0⟩ : Product) else none) 3 10).1 =
      (none, msg_error ("Product " ++ toString (3 : ℤ) ++ " (" ++ "Soy Milk" ++ ") is sold out.")) :=
  ⟨⟨rfl, rfl⟩,
    (retrieve_product_error_precedence
        (fun i => if i = 3 then some (⟨3, "Soy Milk", 1, 0⟩ : Product) else none) 3 10).2.1
      ⟨3, "Soy Milk", 1, 0⟩ rfl rfl⟩

/-- C6: for a present product with positive stock, the call fails (and then
with the insufficient-funds failure) exactly when the offered amount is
below `⌊price * 100⌋`; at or above that the funds check passes and the call
succeeds; a price of 1.20 converts to 120 cents. -/
theorem retrieve_product_funds_check (inv : Inventory) (id amount_ct : ℤ) (p : Product)
    (hp : inv id = some p) (hs : 0 < p.stock) :
    ((retrieve_product inv id amount_ct).1 = (none, msg_error "Insufficient funds.") ↔
      amount_ct < price_ct p.price) ∧
    (price_ct p.price ≤ amount_ct →
      (retrieve_product inv id amount_ct).1.1 = some (price_ct p.price)) ∧
    price_ct (6/5 : ℚ) = 120 := by
  have h0 : p.stock ≠ 0 := by omega
  refine ⟨⟨fun h => ?_, fun h => ?_⟩, fun h => ?_, by rw [price_ct]; norm_num⟩
  · by_contra hge
    rw [retrieve_product_of_success inv id amount_ct p hp h0 (not_lt.1 hge)] at h
    simp at h
  · rw [retrieve_product_of_insufficient inv id amount_ct p hp h0 h]
  · rw [retrieve_product_of_success inv id amount_ct p hp h0 h]

/-- C6 witness: a product priced 1.20 with funds 119 and 120. -/
theorem retrieve_product_funds_check_witness :
    ((fun i => if i = 3 then some (⟨3, "Diet Coke", 6/5, 10⟩ : Product) else none) 3 =
        some (⟨3, "Diet Coke", 6/5, 10⟩ : Product) ∧
      (0 : ℤ) < (⟨3, "Diet Coke", 6/5, 10⟩ : Product).stock) ∧
    (retrieve_product
        (fun i => if i = 3 then some (⟨3, "Diet Coke", 6/5, 10⟩ : Product) else none)
        3 119).1 = (none, msg_error "Insufficient funds.") :=
  ⟨⟨rfl, by decide⟩,
    (retrieve_product_funds_check
        (fun i => if i = 3 then some (⟨3, "Diet Coke", 6/5, 10⟩ : Product) else none)
        3 119 ⟨3, "Diet Coke", 6/5, 10⟩ rfl (by decide)).1.mpr
      (by rw [price_ct]; norm_num)⟩

/-- C8: a successful `retrieve_product` call decrements the product's stock
by exactly 1 in the resulting inventory; if the stock was 1, the next call
for the same id fails with the sold-out failure for every offered amount. -/
theorem retrieve_product_decrements (inv : Inventory) (id amount_ct : ℤ) (p : Product)
    (hp : inv id = some p) (hs : p.stock ≠ 0) (hf : price_ct p.price ≤ amount_ct) :
    (retrieve_product inv id amount_ct).2 id = some { p with stock := p.stock - 1 } ∧
    (p.stock = 1 → ∀ a2,
      (retrieve_product (retrieve_product inv id amount_ct).2 id a2).1 =
        (none, msg_error ("Product " ++ toString id ++ " (" ++ p.name ++ ") is sold out."))) := by
  rw [retrieve_product_of_success inv id amount_ct p hp hs hf]
  refine ⟨by simp, fun h1 a2 => ?_⟩
  have h2 : (fun i => if i = id then some { p with stock := p.stock - 1 } else inv i) id =
      some { p with stock := p.stock - 1 } := by simp
  rw [retrieve_product_of_soldout _ id a2 { p with stock := p.stock - 1 } h2 (by simp [h1])]

/-- C8 witness: a product with stock 1 retrieved successfully, then sold out. -/
theorem retrieve_product_decrements_witness :
    ((fun i => if i = 1 then some (⟨1, "Pinot Noir", 9/2, 1⟩ : Product) else none) 1 =
        some (⟨1, "Pinot Noir", 9/2, 1⟩ : Product) ∧
      (⟨1, "Pinot Noir", 9/2, 1⟩ : Product).stock ≠ 0 ∧
      price_ct (⟨1, "Pinot Noir", 9/2, 1⟩ : Product).price ≤ 500) ∧
    ((retrieve_product
        (fun i => if i = 1 then some (⟨1, "Pinot Noir", 9/2, 1⟩ : Product) else none)
        1 500).2 1 = some (⟨1, "Pinot Noir", 9/2, 0⟩ : Product) ∧
      ((⟨1, "Pinot Noir", 9/2, 1⟩ : Product).stock = 1 → ∀ a2,
        (retrieve_product
            (retrieve_product
              (fun i => if i = 1 then some (⟨1, "Pinot Noir", 9/2, 1⟩ : Product) else none)
              1 500).2 1 a2).1 =
          (none,
            msg_error ("Product " ++ toString (1 : ℤ) ++ " (" ++ "Pinot Noir" ++ ") is sold out.")))) :=
  ⟨⟨rfl, by decide, by rw [price_ct]; norm_num⟩,
    retrieve_product_decrements
      (fun i => if i = 1 then some (⟨1, "Pinot Noir", 9/2, 1⟩ : Product) else none)
      1 500 ⟨1, "Pinot Noir", 9/2, 1⟩ rfl (by decide) (by rw [price_ct]; norm_num)⟩

/-- C10: a failing `retrieve_product` call leaves the inventory unchanged; a
successful call changes only the retrieved product's stock, keeping its id,
name and price and leaving every other id's entry untouched. -/
theorem retrieve_product_frame (inv : Inventory) (id amount_ct : ℤ) :
    ((retrieve_product inv id amount_ct).1.1 = none →
      (retrieve_product inv id amount_ct).2 = inv) ∧
    (∀ p, inv id = some p → (retrieve_product inv id amount_ct).1.1 ≠ none →
      (∀ j, j ≠ id → (retrieve_product inv id amount_ct).2 j = inv j) ∧
      (retrieve_product inv id amount_ct).2 id =
        some { id := p.id, name := p.name, price := p.price, stock := p.stock - 1 }) := by
  rcases hinv : inv id with _ | p
  · rw [retrieve_product_of_unknown inv id amount_ct hinv]
    exact ⟨fun _ => rfl, fun p hp => by cases hp⟩
  · by_cases h0 : p.stock = 0
    · rw [retrieve_product_of_soldout inv id amount_ct p hinv h0]
      refine ⟨fun _ => rfl, fun q hq hne => absurd rfl hne⟩
    · by_cases hlt : amount_ct < price_ct p.price
      · rw [retrieve_product_of_insufficient inv id amount_ct p hinv h0 hlt]
        refine ⟨fun _ => rfl, fun q hq hne => absurd rfl hne⟩
      · rw [retrieve_product_of_success inv id amount_ct p hinv h0 (not_lt.1 hlt)]
        refine ⟨fun h => by simp at h, fun q hq _ => ?_⟩
        have hpq : q = p := (Option.some.inj hq).symm
        subst hpq
        exact ⟨fun j hj => by simp [hj], by simp⟩

/-- C10 witness: success for id 1 leaves id 2 untouched and only decrements
the stock of id 1; a failing call for id 9 leaves the inventory unchanged. -/
theorem retrieve_product_frame_witness :
    ((fun i => if i = 1 then some (⟨1, "Water", 1/2, 10⟩ : Product)
        else if i = 2 then some (⟨2, "Coke", 1, 10⟩ : Product) else none) 1 =
      some (⟨1, "Water", 1/2, 10⟩ : Product) ∧
      (retrieve_product
          (fun i => if i = 1 then some (⟨1, "Water", 1/2, 10⟩ : Product)
            else if i = 2 then some (⟨2, "Coke", 1, 10⟩ : Product) else none)
          1 100).1.1 ≠ none) ∧
    ((∀ j, j ≠ 1 →
        (retrieve_product
            (fun i => if i = 1 then some (⟨1, "Water", 1/2, 10⟩ : Product)
              else if i = 2 then some (⟨2, "Coke", 1, 10⟩ : Product) else none)
            1 100).2 j =
          (fun i => if i = 1 then some (⟨1, "Water", 1/2, 10⟩ : Product)
            else if i = 2 then some (⟨2, "Coke", 1, 10⟩ : Product) else none) j) ∧
      (retrieve_product
          (fun i => if i = 1 then some (⟨1, "Water", 1/2, 10⟩ : Product)
            else if i = 2 then some (⟨2, "Coke", 1, 10⟩ : Product) else none)
          1 100).2 1 =
        some { id := (1 : ℤ), name := "Water", price := (1/2 : ℚ), stock := (10 : ℤ) - 1 }) :=
  ⟨⟨rfl, by
      rw [retrieve_product_of_success
          (fun i => if i = 1 then some (⟨1, "Water", 1/2, 10⟩ : Product)
            else if i = 2 then some (⟨2, "Coke", 1, 10⟩ : Product) else none)
          1 100 ⟨1, "Water", 1/2, 10⟩ rfl (by decide) (by rw [price_ct]; norm_num)]
      simp⟩,
    (retrieve_product_frame
        (fun i => if i = 1 then some (⟨1, "Water", 1/2, 10⟩ : Product)
          else if i = 2 then some (⟨2, "Coke", 1, 10⟩ : Product) else none)
        1 100).2 ⟨1, "Water", 1/2, 10⟩ rfl
      (by
        rw [retrieve_product_of_success
            (fun i => if i = 1 then some (⟨1, "Water", 1/2, 10⟩ : Product)
              else if i = 2 then some (⟨2, "Coke", 1, 10⟩ : Product) else none)
            1 100 ⟨1, "Water", 1/2, 10⟩ rfl (by decide) (by rw [price_ct]; norm_num)]
        simp)⟩

/-- C3: `return_coins` returns the coin decomposition of the current balance
over the machine's denominations and unconditionally resets the balance to
0, whether the decomposition succeeds or fails; inventory and coin set are
untouched. -/
theorem return_coins_spec (m : VendingMachineModel) :
    (return_coins m).1.balance = 0 ∧
    (return_coins m).2 = amount_to_coins m.balance m.coins ∧
    (return_coins m).1.inventory = m.inventory ∧
    (return_coins m).1.coins = m.coins :=
  ⟨rfl, rfl, rfl, rfl⟩

/-- C4: `buy_product` forwards the pair produced by `retrieve_product` on
the current balance unchanged; on success the balance decreases by exactly
the returned price, on failure it is unchanged. -/
theorem buy_product_spec (m : VendingMachineModel) (id : ℤ) :
    (buy_product m id).2 = (retrieve_product m.inventory id m.balance).1 ∧
    (∀ p msg, (retrieve_product m.inventory id m.balance).1 = (some p, msg) →
      (buy_product m id).1.balance = m.balance - p) ∧
    (∀ msg, (retrieve_product m.inventory id m.balance).1 = (none, msg) →
      (buy_product m id).1.balance = m.balance) := by
  rcases hr : retrieve_product m.inventory id m.balance with ⟨⟨res, msg0⟩, inv2⟩
  rcases res with _ | p
  · exact ⟨by simp [buy_product, hr], fun p msg h => by simp at h, fun msg h => by
      simp [buy_product, hr]⟩
  · refine ⟨by simp [buy_product, hr], fun q msg h => ?_, fun msg h => by simp at h⟩
    have hq : q = p := by
      have := congrArg Prod.fst h
      simpa using this.symm
    subst hq
    simp [buy_product, hr]

/-- C4 witness: a successful purchase deducts the price; an unknown-id
purchase leaves the balance unchanged. -/
theorem buy_product_spec_witness :
    ((retrieve_product
        (fun i => if i = 1 then some (⟨1, "Water", 1/2, 10⟩ : Product) else none)
        1 (200 : ℤ)).1 =
      (some (price_ct (1/2 : ℚ)),
        "You retrieved 1 " ++ "Water" ++ " for the price of €" ++ fmt_eur (1/2 : ℚ) ++ ".")) ∧
    (buy_product
        ⟨fun i => if i = 1 then some (⟨1, "Water", 1/2, 10⟩ : Product) else none,
          200, sort_desc DEFAULT_COINS⟩ 1).1.balance = 200 - price_ct (1/2 : ℚ) :=
  have h : (retrieve_product
      (fun i => if i = 1 then some (⟨1, "Water", 1/2, 10⟩ : Product) else none)
      1 (200 : ℤ)).1 =
      (some (price_ct (1/2 : ℚ)),
        "You retrieved 1 " ++ "Water" ++ " for the price of €" ++ fmt_eur (1/2 : ℚ) ++ ".") := by
    rw [retrieve_product_of_success
        (fun i => if i = 1 then some (⟨1, "Water", 1/2, 10⟩ : Product) else none)
        1 200 ⟨1, "Water", 1/2, 10⟩ rfl (by decide) (by rw [price_ct]; norm_num)]
  ⟨h,
    (buy_product_spec
        ⟨fun i => if i = 1 then some (⟨1, "Water", 1/2, 10⟩ : Product) else none,
          200, sort_desc DEFAULT_COINS⟩ 1).2.1 (price_ct (1/2 : ℚ)) _ h⟩

theorem retrieve_product_success_le (inv : Inventory) (id amount_ct p : ℤ)
    (h : (retrieve_product inv id amount_ct).1.1 = some p) : p ≤ amount_ct := by
  rcases hinv : inv id with _ | prod
  · rw [retrieve_product_of_unknown inv id amount_ct hinv] at h
    cases h
  · by_cases h0 : prod.stock = 0
    · rw [retrieve_product_of_soldout inv id amount_ct prod hinv h0] at h
      cases h
    · by_cases hlt : amount_ct < price_ct prod.price
      · rw [retrieve_product_of_insufficient inv id amount_ct prod hinv h0 hlt] at h
        cases h
      · rw [retrieve_product_of_success inv id amount_ct prod hinv h0 (not_lt.1 hlt)] at h
        have hp : price_ct prod.price = p := Option.some.inj h
        rw [← hp]
        exact not_lt.1 hlt

/-- C5: the balance is a non-negative integer number of cents: it starts at
0, and from any state with non-negative balance each operation
(`insert_money`, `buy_product`, `return_coins`) keeps it non-negative
(integrality holds by construction, the balance being an integer of
type ℤ in every state). -/
theorem balance_invariant (m : VendingMachineModel) (hm : 0 ≤ m.balance) :
    (∀ inv, (VendingMachineModel.init inv).balance = 0) ∧
    (∀ a, 0 ≤ (insert_money m a).1.balance) ∧
    (∀ id, 0 ≤ (buy_product m id).1.balance) ∧
    0 ≤ (return_coins m).1.balance := by
  refine ⟨fun inv => rfl, fun a => ?_, fun id => ?_, le_refl 0⟩
  · show 0 ≤ m.balance + ⌊max 0 (a * 100)⌋
    exact add_nonneg hm (Int.floor_nonneg.2 (le_max_left 0 (a * 100)))
  · rcases hr : retrieve_product m.inventory id m.balance with ⟨⟨res, msg0⟩, inv2⟩
    rcases res with _ | p
    · simpa [buy_product, hr] using hm
    · have hple : p ≤ m.balance := by
        apply retrieve_product_success_le m.inventory id m.balance p
        rw [hr]
      simp only [buy_product, hr]
      omega

/-- C5 witness: an empty machine with balance 0. -/
theorem balance_invariant_witness :
    (0 : ℤ) ≤ (⟨fun _ => none, 0, sort_desc DEFAULT_COINS⟩ : VendingMachineModel).balance ∧
    ((∀ inv, (VendingMachineModel.init inv).balance = 0) ∧
      (∀ a, 0 ≤ (insert_money
        (⟨fun _ => none, 0, sort_desc DEFAULT_COINS⟩ : VendingMachineModel) a).1.balance) ∧
      (∀ id, 0 ≤ (buy_product
        (⟨fun _ => none, 0, sort_desc DEFAULT_COINS⟩ : VendingMachineModel) id).1.balance) ∧
      0 ≤ (return_coins
        (⟨fun _ => none, 0, sort_desc DEFAULT_COINS⟩ : VendingMachineModel)).1.balance) :=
  ⟨by decide, balance_invariant ⟨fun _ => none, 0, sort_desc DEFAULT_COINS⟩ (by decide)⟩

/-- C7: `insert_money` adds exactly `⌊max 0 amount * 100⌋` cents to the
balance and returns the new balance in EUR; inserting -5 leaves the balance
unchanged, inserting 0.2498 adds exactly 24 cents. -/
theorem insert_money_spec (m : VendingMachineModel) (a : ℚ) :
    (insert_money m a).1.balance = m.balance + ⌊max 0 a * 100⌋ ∧
    (insert_money m a).2 = ((insert_money m a).1.balance : ℚ) / 100 ∧
    (insert_money m (-5 : ℚ)).1.balance = m.balance ∧
    (insert_money m (2498/10000 : ℚ)).1.balance = m.balance + 24 := by
  refine ⟨?_, rfl, ?_, ?_⟩
  · show m.balance + ⌊max 0 (a * 100)⌋ = m.balance + ⌊max 0 a * 100⌋
    rw [max_mul_of_nonneg 0 a (by norm_num : (0:ℚ) ≤ 100), zero_mul]
  · show m.balance + ⌊max (0:ℚ) ((-5) * 100)⌋ = m.balance
    rw [max_eq_left (by norm_num : ((-5:ℚ) * 100) ≤ 0)]
    simp
  · show m.balance + ⌊max (0:ℚ) ((2498/10000) * 100)⌋ = m.balance + 24
    rw [max_eq_right (by norm_num : (0:ℚ) ≤ (2498/10000) * 100)]
    norm_num
